import Mathlib

/-!
# Shallow embedding of the btc_scan analyze pipeline

This file embeds the market-data-with-fallback + multi-signal scoring engine of
`btc_scan.py` (functions `safe_fetch`, `fetch_binance_klines`,
`fetch_coingecko_klines`, `sma`, `compute_rsi`, and `analyze`) as executable
Lean definitions, and proves/refutes the specification claims about it.

Modelling conventions:
* Python floats are modelled as exact rationals; a float that can be NaN is
  modelled by `PFloat` (NaN or a rational value).  The two places where IEEE
  special values actually arise in the source (`ma_up / ma_down` with a zero
  denominator in `compute_rsi`, and `min(0.1, nan)` in the volatility signal)
  are modelled explicitly with the IEEE outcome of the concrete expression.
* Network effects are modelled by passing the outcome of each HTTP call as an
  environment value: a per-attempt outcome function for retried fetches, an
  `Except`/`Option` result for single-shot fetches.
* The pandas DataFrame plumbing (column selection, dtype casts) is pure
  reshaping and is modelled by carrying the candle columns directly as lists.
-/

namespace BtcScan

/-- Float values flowing out of pandas computations: either NaN (an undefined
indicator, e.g. a rolling window with insufficient history) or an exact value,
modelled in ℚ. -/
inductive PFloat where
  | nan : PFloat
  | val : ℚ → PFloat
deriving DecidableEq, Repr

/-- A `PFloat` is `Nonneg` when it is NaN or a nonnegative value.  The rolling
standard deviation `volatility_14` of the source satisfies this by
construction (a standard deviation is NaN or ≥ 0). -/
def PFloat.Nonneg : PFloat → Prop
  | .nan => True
  | .val q => 0 ≤ q

instance : DecidablePred PFloat.Nonneg := fun p =>
  match p with
  | .nan => isTrue trivial
  | .val q => inferInstanceAs (Decidable (0 ≤ q))

/-! ## Static configuration (THRESHOLDS and WEIGHTS dictionaries) -/

/-- THRESHOLDS["rsi_overbought"] = 70 -/
def rsi_overbought : ℚ := 70

/-- THRESHOLDS["rsi_oversold"] = 30 -/
def rsi_oversold : ℚ := 30

/-- THRESHOLDS["volume_multiplier"] = 1.5 -/
def volume_multiplier : ℚ := 3/2

/-- THRESHOLDS["funding_high"] = 0.0005 -/
def funding_high : ℚ := 1/2000

/-- THRESHOLDS["fear_greed_greedy"] = 75 -/
def fear_greed_greedy : ℚ := 75

/-- THRESHOLDS["fear_greed_fearful"] = 25 -/
def fear_greed_fearful : ℚ := 25

/-- The static WEIGHTS dictionary, in source order. -/
def WEIGHTS : List (String × ℚ) :=
  [("trend", 1), ("volume", 1), ("rsi", 1),
   ("funding", 1/2), ("fear_greed", 1/2), ("volatility", 1/2)]

/-! ## Indicator engine -/

/-- Final value of `series.ewm(alpha=alpha, adjust=False).mean()` over a
nonempty series: seeded with the first observation `x0`, then
`ema_t = (1 - alpha) * ema_(t-1) + alpha * x_t`. -/
def emaLast (alpha : ℚ) (x0 : ℚ) (xs : List ℚ) : ℚ :=
  xs.foldl (fun acc x => (1 - alpha) * acc + alpha * x) x0

/-- Model of `series.diff()` without the leading NaN: the consecutive close-to-close
deltas.  pandas `ewm` seeds from the first non-NaN entry, so dropping the
leading NaN is exactly what the downstream smoothing sees. -/
def deltas (closes : List ℚ) : List ℚ :=
  List.zipWith (fun b c => b - c) closes.tail closes

/-- Final value of `compute_rsi(series, period)`.  `up = delta.clip(lower=0)`,
`down = -delta.clip(upper=0)`, both smoothed with `ewm(alpha=1/period,
adjust=False)`; then `rsi = 100 - 100/(1 + ma_up/ma_down)`.  Float semantics of
the division: `ma_up/0` with `ma_up > 0` is `+inf`, giving `rsi = 100`; `0/0`
is NaN, giving `rsi = NaN`.  With fewer than two closes every delta is NaN and
so is the RSI.  (The source default `period = RSI_PERIOD = 14`; `period ≥ 1`
always, since `period = 0` would make the alpha computation itself fail.) -/
def compute_rsi (closes : List ℚ) (period : ℕ) : PFloat :=
  match deltas closes with
  | [] => .nan
  | d :: ds =>
    let alpha : ℚ := 1 / period
    let ma_up := emaLast alpha (max d 0) (ds.map (fun x => max x 0))
    let ma_down := emaLast alpha (max (-d) 0) (ds.map (fun x => max (-x) 0))
    if ma_down = 0 then (if ma_up = 0 then .nan else .val 100)
    else .val (100 - 100 / (1 + ma_up / ma_down))

/-- Final value of `sma(series, window) = series.rolling(window=window).mean()`
(also models `volume.rolling(7).mean()`): NaN until `window` observations are
available, else the mean of the trailing `window` values.  Every source call
site uses a positive window (50, 200, 7). -/
def smaLast (window : ℕ) (xs : List ℚ) : PFloat :=
  if window = 0 ∨ xs.length < window then .nan
  else .val ((xs.drop (xs.length - window)).sum / window)

/-! ## Signal normalizers -/

/-- Python `max(0.0, min(1.0, x))`, the clamp applied to interpolated signals. -/
def clamp01 (x : ℚ) : ℚ := max 0 (min 1 x)

/-- Trend signal: 1.0 above both moving averages, 0.0 below both, 0.5 mixed or
when either average is NaN (insufficient history). -/
def trendSignal (price : ℚ) (ma50 ma200 : PFloat) : ℚ :=
  match ma50, ma200 with
  | .val a, .val b =>
    if price > a ∧ price > b then 1
    else if price < a ∧ price < b then 0
    else 1/2
  | _, _ => 1/2

/-- Volume signal: 0.5 when the 7-period average is NaN or zero; else
`mult = vol / vol7`, 1.0 when `mult >= volume_multiplier`, 0.0 when
`mult < 0.8`, 0.5 otherwise. -/
def volumeSignal (vol : ℚ) (vol7 : PFloat) : ℚ :=
  match vol7 with
  | .nan => 1/2
  | .val q =>
    if q = 0 then 1/2
    else
      let mult := vol / q
      if mult ≥ volume_multiplier then 1
      else if mult < 4/5 then 0
      else 1/2

/-- RSI signal: 0.5 when the RSI is NaN; 0.0 at/above overbought, 1.0 at/below
oversold, else the inverted linear interpolation, clamped to [0,1]. -/
def rsiSignal (rsi : PFloat) : ℚ :=
  match rsi with
  | .nan => 1/2
  | .val x =>
    if x ≥ rsi_overbought then 0
    else if x ≤ rsi_oversold then 1
    else clamp01 (1 - (x - rsi_oversold) / (rsi_overbought - rsi_oversold))

/-- Funding signal: 0.5 when the funding fetch returned nothing; 0.0 at/above
`+funding_high`, 1.0 at/below `-funding_high`, else centered interpolation,
clamped. -/
def fundingSignal (funding : Option ℚ) : ℚ :=
  match funding with
  | none => 1/2
  | some x =>
    if x ≥ funding_high then 0
    else if x ≤ -funding_high then 1
    else clamp01 (1/2 - x / (2 * funding_high))

/-- Fear & Greed signal: 0.5 when the fetch returned nothing; 0.0 at/above the
greedy threshold, 1.0 at/below the fearful threshold, else inverted linear
interpolation, clamped. -/
def fearGreedSignal (fg : Option ℤ) : ℚ :=
  match fg with
  | none => 1/2
  | some v =>
    if (v : ℚ) ≥ fear_greed_greedy then 0
    else if (v : ℚ) ≤ fear_greed_fearful then 1
    else clamp01 (1 - ((v : ℚ) - fear_greed_fearful) /
                        (fear_greed_greedy - fear_greed_fearful))

/-- Volatility signal, exactly as the source computes it:
`vol_norm = min(0.1, volatility_14) / 0.1 if volatility_14 is not None else 0.0`
then `volatility_signal = 1 - vol_norm`.  When `volatility_14` is NaN the
Python builtin `min(0.1, nan)` returns its first argument `0.1` (because
`nan < 0.1` is false), so `vol_norm = 1` and the signal is 0 — no exception is
raised, so the `except` branch that would yield 0.5 is not reached.  When
`volatility_14` is `None` (a dead branch in the source: a rolling std is a
float, possibly NaN, never `None`), `vol_norm = 0` and the signal is 1. -/
def volatilitySignal (volatility_14 : Option PFloat) : ℚ :=
  let vol_norm : ℚ :=
    match volatility_14 with
    | none => 0
    | some .nan => (1/10) / (1/10)
    | some (.val q) => (min (1/10) q) / (1/10)
  1 - vol_norm

/-! ## Score aggregation and verdict -/

/-- Model of `signals.get(k, 0.5)` on the signals dictionary, modelled as an
association list in insertion order. -/
def lookupD (signals : List (String × ℚ)) (k : String) : ℚ :=
  match signals.lookup k with
  | some v => v
  | none => 1/2

/-- The weighted-score loop of `analyze`:
`score = sum(signals.get(k, 0.5) * w for k, w in WEIGHTS.items())`, divided by
`total_weight` — or 0.5 when `total_weight` is falsy (zero). -/
def weightedScore (signals weights : List (String × ℚ)) : ℚ :=
  let total_weight := (weights.map Prod.snd).sum
  let s := weights.foldl (fun acc kw => acc + lookupD signals kw.1 * kw.2) 0
  if total_weight = 0 then 1/2 else s / total_weight

/-- Verdict string from the score, exactly the source strings. -/
def verdictOf (score : ℚ) : String :=
  if score ≥ 3/5 then "BUY (probabilistic)"
  else if score ≤ 2/5 then "SELL (probabilistic)"
  else "NEUTRAL / WAIT"

/-- Three-way verdict classification (the ScoreResult verdict domain of the
specification). -/
inductive VerdictClass where
  | buy : VerdictClass
  | sell : VerdictClass
  | neutral : VerdictClass
deriving DecidableEq, Repr

/-- Does `pat` start `text`?  (Helper for Python's `in` on strings.) -/
def strStarts : List Char → List Char → Bool
  | [], _ => true
  | _ :: _, [] => false
  | p :: ps, c :: cs => p == c && strStarts ps cs

/-- Does `pat` occur somewhere in `text`?  Models Python's `pat in text`. -/
def strOccurs (pat : List Char) : List Char → Bool
  | [] => strStarts pat []
  | c :: cs => strStarts pat (c :: cs) || strOccurs pat cs

/-- Classification of a verdict string, as `run_once.build_html_message` does
it: `"BUY" in v` → buy, `"SELL" in v` → sell, else neutral.  (The source
uppercases `v` first; every verdict string the scanner produces already has
the keyword in upper case, so the model compares directly.) -/
def verdictClass (vstr : String) : VerdictClass :=
  if strOccurs "BUY".data vstr.data then .buy
  else if strOccurs "SELL".data vstr.data then .sell
  else .neutral

/-! ## The analyze pipeline -/

/-- One candle row as consumed by `analyze` (only the close and volume columns
feed the indicator engine). -/
structure Candle where
  close : ℚ
  volume : ℚ
deriving DecidableEq, Repr

/-- Errors from the resilient fetcher: an HTTPError carrying the response
status when available, or any other transport/processing error. -/
inductive FetchErr where
  | http : Option Nat → FetchErr
  | other : String → FetchErr
deriving DecidableEq, Repr

/-- The result record returned by `analyze` (the ScoreResult of the
specification); `signals` is the dict built up key by key, modelled as an
association list in insertion order. -/
structure ScoreResult where
  price : Option ℚ
  score : ℚ
  verdict : String
  signals : List (String × ℚ)
deriving DecidableEq, Repr

/-- The signals dict of every degraded fallback result: all six categories
at 0.5. -/
def allHalfSignals : List (String × ℚ) :=
  [("trend", 1/2), ("volume", 1/2), ("rsi", 1/2),
   ("funding", 1/2), ("fear_greed", 1/2), ("volatility", 1/2)]

/-- Environment of one `analyze` invocation: the outcome of each external
interaction.  `klines` is the outcome of `fetch_binance_klines()` (which
already contains the Binance→CoinGecko candle fallback); `spot` the outcome of
the standalone `coingecko_price()` helper; `funding` and `fear_greed` the
outcomes of the two auxiliary single-value feeds (already reduced to their
fail-soft `None`-or-value form by `fetch_binance_funding_rate` /
`fetch_fear_and_greed`).  `vol14` is the value of
`df["close"].pct_change().rolling(14).std().iloc[-1]`: a rolling standard
deviation involves a square root, so the model carries it as an environment
value; a rolling std is always NaN or nonnegative (`PFloat.Nonneg`). -/
structure AnalyzeEnv where
  klines : Except FetchErr (List Candle)
  spot : Option ℚ
  funding : Option ℚ
  fear_greed : Option ℤ
  vol14 : PFloat

/-- The degraded result built when no candle data is available: price is the
best-effort CoinGecko spot price when obtainable, else null; score 0.5; a
NEUTRAL verdict; all six signals 0.5. -/
def fallbackResult (spot : Option ℚ) : ScoreResult :=
  match spot with
  | none => ScoreResult.mk none (1/2) "NEUTRAL / WAIT (no price)" allHalfSignals
  | some p =>
    ScoreResult.mk (some p) (1/2) "NEUTRAL / WAIT (fallback price)" allHalfSignals

/-- The main path of `analyze`, reached with a candle frame of ≥ 3 rows:
compute MA50/MA200/RSI14/vol_7avg from the candle columns, normalize the six
signals (the funding and fear/greed feeds fail-soft through their `Option`
outcome), aggregate with the static weights, classify. -/
def mainPath (df : List Candle) (env : AnalyzeEnv) : ScoreResult :=
  let closes := df.map Candle.close
  let volumes := df.map Candle.volume
  let price := closes.getLastD 0
  let ma50 := smaLast 50 closes
  let ma200 := smaLast 200 closes
  let rsi := compute_rsi closes 14
  let vol := volumes.getLastD 0
  let vol7 := smaLast 7 volumes
  let signals : List (String × ℚ) :=
    [("trend", trendSignal price ma50 ma200),
     ("volume", volumeSignal vol vol7),
     ("rsi", rsiSignal rsi),
     ("funding", fundingSignal env.funding),
     ("fear_greed", fearGreedSignal env.fear_greed),
     ("volatility", volatilitySignal (some env.vol14))]
  let score := weightedScore signals WEIGHTS
  ScoreResult.mk (some price) score (verdictOf score) signals

/-- Model of `analyze()`: if the candle acquisition raised, or produced fewer than 3
rows, return the degraded fallback result (price as available from the
standalone spot fetch); otherwise run the indicator/signal/score pipeline. -/
def analyze (env : AnalyzeEnv) : ScoreResult :=
  match env.klines with
  | .error _ => fallbackResult env.spot
  | .ok df => if df.length < 3 then fallbackResult env.spot else mainPath df env

/-! ## Resilient fetcher (safe_fetch) -/

/-- Attempt loop of `safe_fetch`, with explicit fuel (the number of attempts
still allowed).  `f n` is the outcome of the HTTP GET on attempt `n`.  The
return value records, next to the final outcome, the index of the last attempt
made and the list of backoff sleeps performed (in time units), in order.  On a
failed attempt that is not the last, the loop sleeps `backoff` and doubles it;
on the last attempt's failure the error propagates with no further sleep or
retry.  (Fuel 0 — `max_retries = 0` — never occurs in the source, whose call
sites pass 2 or 3; it is modelled as an immediate failure.) -/
def safe_fetch_aux {A : Type} (f : Nat → Except FetchErr A) :
    Nat → Nat → ℚ → Except FetchErr A × Nat × List ℚ
  | 0, attempt, _ => (.error (.other "no attempts"), attempt, [])
  | 1, attempt, _ =>
    (match f attempt with
     | .ok a => (.ok a, attempt, [])
     | .error e => (.error e, attempt, []))
  | (n + 2), attempt, backoff =>
    match f attempt with
    | .ok a => (.ok a, attempt, [])
    | .error _ =>
      let r := safe_fetch_aux f (n + 1) (attempt + 1) (2 * backoff)
      (r.1, r.2.1, backoff :: r.2.2)

/-- Model of `safe_fetch(url, params, timeout, max_retries)`: attempts start at 1 with
an initial backoff of 1.0. -/
def safe_fetch {A : Type} (f : Nat → Except FetchErr A) (max_retries : Nat) :
    Except FetchErr A × Nat × List ℚ :=
  safe_fetch_aux f max_retries 1 1

/-! ## Market data source chain (fetch_binance_klines) -/

/-- External outcomes seen by one `fetch_binance_klines()` call: the
per-attempt outcome of the Binance klines GET (already parsed into candle
rows — the DataFrame construction and dtype casts are pure reshaping), and the
outcome of `fetch_coingecko_klines()` (which is total: a candle list or
`None`, see below). -/
structure BinanceFetchEnv where
  primary : Nat → Except FetchErr (List Candle)
  coingecko : Option (List Candle)

deriving instance DecidableEq for Except

/-- Observable behaviour of one `fetch_binance_klines()` call: its outcome,
how many attempts `safe_fetch` made against the primary source, the backoff
sleeps performed, and how many times the CoinGecko candle fallback was
invoked. -/
structure BinanceFetchResult where
  result : Except FetchErr (List Candle)
  primary_attempts : Nat
  primary_sleeps : List ℚ
  coingecko_calls : Nat
deriving DecidableEq, Repr

/-- Model of `fetch_binance_klines`: run `safe_fetch` against Binance with
`max_retries = 3`.  On success return the parsed frame.  On an `HTTPError`
whose status is 451/403/429, try the CoinGecko candle fallback once and return
it when it yields a frame, else re-raise; on an `HTTPError` with any other
status re-raise without trying the candle fallback (the generic `except`
clause does not catch an exception already matched by the `HTTPError`
clause); on any non-HTTP error, try the fallback once, else re-raise. -/
def fetch_binance_klines (env : BinanceFetchEnv) : BinanceFetchResult :=
  let r := safe_fetch env.primary 3
  match r.1 with
  | .ok df => ⟨.ok df, r.2.1, r.2.2, 0⟩
  | .error (.http s) =>
    if s = some 451 ∨ s = some 403 ∨ s = some 429 then
      match env.coingecko with
      | some df_f => ⟨.ok df_f, r.2.1, r.2.2, 1⟩
      | none => ⟨.error (.http s), r.2.1, r.2.2, 1⟩
    else ⟨.error (.http s), r.2.1, r.2.2, 0⟩
  | .error (.other m) =>
    match env.coingecko with
    | some df_f => ⟨.ok df_f, r.2.1, r.2.2, 1⟩
    | none => ⟨.error (.other m), r.2.1, r.2.2, 1⟩

/-! ## CoinGecko candle fallback (fetch_coingecko_klines) -/

/-- Parsed JSON body of the CoinGecko market_chart response:
`j.get("prices", [])` and `j.get("total_volumes", [])`, two parallel arrays of
`[timestamp_ms, value]` points. -/
structure CgJson where
  prices : List (ℤ × ℚ)
  total_volumes : List (ℤ × ℚ)
deriving DecidableEq, Repr

/-- One resampled hourly candle row in the canonical column schema
`["open_time", "open", "high", "low", "close", "volume", "close_time"]`
(times in ms since epoch). -/
structure CgCandle where
  open_time : ℤ
  «open» : ℚ
  high : ℚ
  low : ℚ
  close : ℚ
  volume : ℚ
  close_time : ℤ
deriving DecidableEq, Repr

/-- Truncate a millisecond timestamp to its hour bucket (pandas
`resample("1H")` floors timestamps to the hour). -/
def hourOf (ts : ℤ) : ℤ := ts.fdiv 3600000

/-- The price points falling in hour bucket `h`, in series order. -/
def pricesInHour (prices : List (ℤ × ℚ)) (h : ℤ) : List ℚ :=
  (prices.filter (fun p => hourOf p.1 = h)).map Prod.snd

/-- The hour buckets that contain at least one price point, in order of first
appearance (the CoinGecko series is timestamp-ascending, so this is ascending;
buckets with no data produce all-NaN ohlc rows in pandas and are dropped by
`dropna`, hence only populated buckets appear). -/
def priceHours (prices : List (ℤ × ℚ)) : List ℤ :=
  (prices.map (fun p => hourOf p.1)).dedup

/-- The resampled volume for hour `h`: `resample("1H").sum()` produces a row
for every hour between the first and last volume timestamp (0 for an empty
bucket in that span) and nothing outside that span; assigning it as a column
of the ohlc frame leaves NaN — later dropped — for hours outside the span. -/
def volForHour (volumes : List (ℤ × ℚ)) (h : ℤ) : Option ℚ :=
  match volumes.map (fun p => hourOf p.1) with
  | [] => none
  | h0 :: hs =>
    if hs.foldl min h0 ≤ h ∧ h ≤ hs.foldl max h0 then
      some (((volumes.filter (fun p => hourOf p.1 = h)).map Prod.snd).sum)
    else none

/-- The candle for a populated hour bucket: open/high/low/close are
first/max/min/last price in the bucket, volume the bucket sum (the row is
dropped — `none` — when the volume column is NaN there).  The bucket label
(hour start) becomes `close_time` after the `reset_index` rename, and
`open_time` is synthesized as `close_time - 1 hour`. -/
def cgCandleAt (prices volumes : List (ℤ × ℚ)) (h : ℤ) : Option CgCandle :=
  match pricesInHour prices h with
  | [] => none
  | p :: ps =>
    match volForHour volumes h with
    | none => none
    | some v =>
      let close_time := h * 3600000
      some ⟨close_time - 3600000, p, ps.foldl max p, ps.foldl min p,
            ps.getLastD p, v, close_time⟩

/-- The full hourly resample of the CoinGecko point series: one candle per
populated price hour whose volume is defined, in time order. -/
def cgResample (prices volumes : List (ℤ × ℚ)) : List CgCandle :=
  (priceHours prices).filterMap (cgCandleAt prices volumes)

/-- Model of `df.iloc[-limit:]` on a frame known to have more than `limit` rows: the
trailing `limit` rows — except that `-0` slices from the start, so `limit = 0`
keeps the whole frame. -/
def ilocLast {α : Type} (limit : Nat) (l : List α) : List α :=
  if limit = 0 then l else l.drop (l.length - limit)

/-- Model of `fetch_coingecko_klines(symbol, interval, limit)`, with the outcome of its
inner `safe_fetch` passed in.  The whole body runs inside `try/except`
returning `None`, so every failure — the fetch raising, empty price data,
fewer than 10 resampled candles — maps to `none` and nothing propagates. -/
def fetch_coingecko_klines (fetched : Except FetchErr CgJson) (limit : Nat) :
    Option (List CgCandle) :=
  match fetched with
  | .error _ => none
  | .ok j =>
    if j.prices = [] then none
    else
      let df := cgResample j.prices j.total_volumes
      if df.length < 10 then none
      else if df.length > limit then some (ilocLast limit df)
      else some df

/-! ## Concrete inputs used by witnesses and counterexamples -/

/-- Ten flat hourly candles, a valid fallback frame (≥ 10 resampled rows). -/
def demoCandles : List Candle := List.replicate 10 ⟨100, 1000⟩

/-- A Binance environment whose primary source refuses every attempt with
HTTP 429 and whose CoinGecko candle fallback succeeds. -/
def env429 : BinanceFetchEnv :=
  ⟨fun _ => .error (.http (some 429)), some demoCandles⟩

/-- A CoinGecko market_chart body with one price/volume point in each of 12
consecutive hours (timestamps in ms). -/
def cgDemo : CgJson :=
  ⟨(List.range 12).map (fun i => ((i : ℤ) * 3600000, 100 + i)),
   (List.range 12).map (fun i => ((i : ℤ) * 3600000, 1))⟩

/-- An analyze environment where candle acquisition failed and no spot price
was obtainable. -/
def envNoData : AnalyzeEnv := ⟨.error (.other "boom"), none, none, none, .nan⟩

/-- An analyze environment where candle acquisition failed but the standalone
CoinGecko spot price succeeded. -/
def envSpotOnly : AnalyzeEnv :=
  ⟨.error (.other "boom"), some 42000, none, none, .nan⟩

/-- A per-attempt fetch outcome that fails on every attempt. -/
def alwaysFail : Nat → Except FetchErr Unit := fun _ => .error (.other "down")

/-! ## Helper lemmas -/

theorem clamp01_nonneg (x : ℚ) : 0 ≤ clamp01 x := le_max_left 0 _

theorem clamp01_le_one (x : ℚ) : clamp01 x ≤ 1 := by
  unfold clamp01
  rcases le_total 0 (min 1 x) with h | h
  · rw [max_eq_right h]; exact min_le_left 1 x
  · rw [max_eq_left h]; norm_num

/-- The three-way classification of the verdict string produced from a
score. -/
theorem verdictClass_verdictOf (s : ℚ) :
    verdictClass (verdictOf s) =
      (if s ≥ 3/5 then VerdictClass.buy
       else if s ≤ 2/5 then VerdictClass.sell else VerdictClass.neutral) := by
  unfold verdictOf
  split_ifs <;> decide

/-- The weighted-sum loop over signals that all read 0.5. -/
theorem foldl_lookup_half (s : List (String × ℚ)) (wts : List (String × ℚ))
    (h : ∀ kv ∈ wts, lookupD s kv.1 = 1/2) (a : ℚ) :
    wts.foldl (fun acc kw => acc + lookupD s kw.1 * kw.2) a
      = a + (1/2) * (wts.map Prod.snd).sum := by
  induction wts generalizing a with
  | nil => simp
  | cons kv rest ih =>
    have h1 : lookupD s kv.1 = 1/2 := h kv (by simp)
    rw [List.foldl_cons, ih (fun kv' hm => h kv' (by simp [hm])), h1]
    simp only [List.map_cons, List.sum_cons]
    ring

/-- An EMA over a stream of zeros, seeded at zero, stays zero. -/
theorem emaLast_zeros (alpha : ℚ) (xs : List ℚ) (h : ∀ x ∈ xs, x = 0) :
    emaLast alpha 0 xs = 0 := by
  induction xs with
  | nil => rfl
  | cons x rest ih =>
    have hx : x = 0 := h x (by simp)
    have hr : emaLast alpha 0 rest = 0 := ih (fun y hy => h y (by simp [hy]))
    show rest.foldl (fun acc y => (1 - alpha) * acc + alpha * y)
      ((1 - alpha) * 0 + alpha * x) = 0
    rw [hx]
    simpa [emaLast] using hr

/-- An EMA with smoothing factor in (0, 1], seeded positive, over a positive
stream, stays positive. -/
theorem emaLast_pos (alpha : ℚ) (h0 : 0 < alpha) (h1 : alpha ≤ 1) :
    ∀ (xs : List ℚ) (x0 : ℚ), 0 < x0 → (∀ x ∈ xs, 0 < x) →
      0 < emaLast alpha x0 xs
  | [], _, hx0, _ => hx0
  | x :: rest, x0, hx0, hxs => by
    have hx : 0 < x := hxs x (by simp)
    have hacc : 0 < (1 - alpha) * x0 + alpha * x := by
      have ha : 0 ≤ (1 - alpha) * x0 := mul_nonneg (by linarith) (le_of_lt hx0)
      have hb : 0 < alpha * x := mul_pos h0 hx
      linarith
    have hrec := emaLast_pos alpha h0 h1 rest ((1 - alpha) * x0 + alpha * x)
      hacc (fun y hy => hxs y (by simp [hy]))
    simpa [emaLast] using hrec

/-- Every delta of a strictly increasing close series is positive. -/
theorem deltas_pos_of_chain :
    ∀ (closes : List ℚ), List.Chain' (· < ·) closes →
      ∀ d ∈ deltas closes, 0 < d
  | [], _, d, hd => by simp [deltas] at hd
  | [_], _, d, hd => by simp [deltas] at hd
  | a :: b :: t, h, d, hd => by
    have hab : a < b := (List.chain'_cons.mp h).1
    have ht : List.Chain' (· < ·) (b :: t) := (List.chain'_cons.mp h).2
    have hdl : deltas (a :: b :: t) = (b - a) :: deltas (b :: t) := rfl
    rw [hdl] at hd
    rcases List.mem_cons.mp hd with h1 | h1
    · rw [h1]; linarith
    · exact deltas_pos_of_chain (b :: t) ht d h1

/-! ## Claim C1 -/

/-- C1: If both market data sources fail entirely — `fetch_binance_klines`
raised (primary attempts and the candle fallback both failed) or yielded fewer
than 3 rows — `analyze` returns, rather than raises, the degraded result:
price is null (or the best-effort standalone spot price when obtainable),
score 0.5, a NEUTRAL-class verdict, and all six signals at 0.5. -/
theorem analyze_total_failure_degraded (env : AnalyzeEnv)
    (h : (∃ e, env.klines = .error e) ∨
         ∃ df, env.klines = .ok df ∧ df.length < 3) :
    analyze env = fallbackResult env.spot ∧
    (analyze env).price = env.spot ∧
    (analyze env).score = 1/2 ∧
    verdictClass (analyze env).verdict = .neutral ∧
    (analyze env).signals = allHalfSignals := by
  have hfb : analyze env = fallbackResult env.spot := by
    rcases h with ⟨e, he⟩ | ⟨df, hdf, hlen⟩
    · simp [analyze, he]
    · simp [analyze, hdf, hlen]
  refine ⟨hfb, ?_, ?_, ?_, ?_⟩ <;> rw [hfb] <;>
    cases env.spot <;> simp [fallbackResult] <;> decide

/-- Witness for C1 at a concrete environment: candle acquisition raised and
the spot fetch also failed. -/
theorem analyze_total_failure_degraded_witness :
    analyze envNoData = fallbackResult none ∧
    verdictClass (analyze envNoData).verdict = .neutral :=
  ⟨(analyze_total_failure_degraded envNoData (Or.inl ⟨_, rfl⟩)).1,
   (analyze_total_failure_degraded envNoData (Or.inl ⟨_, rfl⟩)).2.2.2.1⟩

/-! ## Claim C2 -/

/-- C2: For every signal map over the six fixed categories, the aggregated
score is Σ(signal·weight)/Σ(weight) with the static weights trend=1, volume=1,
rsi=1, funding=0.5, fear_greed=0.5, volatility=0.5, and the verdict is BUY
when score ≥ 0.6, SELL when score ≤ 0.4, NEUTRAL otherwise. -/
theorem score_weighted_average_and_verdict (t v r f g w : ℚ) :
    weightedScore [("trend", t), ("volume", v), ("rsi", r), ("funding", f),
                   ("fear_greed", g), ("volatility", w)] WEIGHTS
      = (t * 1 + v * 1 + r * 1 + f * (1/2) + g * (1/2) + w * (1/2))
          / (1 + 1 + 1 + 1/2 + 1/2 + 1/2) ∧
    (∀ s : ℚ, verdictClass (verdictOf s)
      = (if s ≥ 3/5 then VerdictClass.buy
         else if s ≤ 2/5 then VerdictClass.sell else VerdictClass.neutral)) := by
  constructor
  · simp [weightedScore, WEIGHTS, lookupD, List.lookup]
    norm_num
  · exact verdictClass_verdictOf

/-! ## Claim C3 -/

/-- C3: The volume signal is 0.5 when the 7-period average volume is undefined
(NaN) or zero; otherwise with ratio = vol / vol7 it is 1.0 when
ratio ≥ 1.5, 0.0 when ratio < 0.8, and 0.5 otherwise; in particular a ratio of
exactly 1.5 yields 1.0 and a ratio of exactly 0.8 yields 0.5. -/
theorem volume_signal_thresholds (vol q : ℚ) (hq : q ≠ 0) :
    volumeSignal vol .nan = 1/2 ∧
    volumeSignal vol (.val 0) = 1/2 ∧
    (vol / q ≥ 3/2 → volumeSignal vol (.val q) = 1) ∧
    (vol / q < 4/5 → volumeSignal vol (.val q) = 0) ∧
    (4/5 ≤ vol / q → vol / q < 3/2 → volumeSignal vol (.val q) = 1/2) ∧
    volumeSignal ((3/2) * q) (.val q) = 1 ∧
    volumeSignal ((4/5) * q) (.val q) = 1/2 := by
  have hratio : ∀ c : ℚ, (c * q) / q = c := fun c => by
    rw [mul_div_assoc, div_self hq, mul_one]
  refine ⟨by simp [volumeSignal], by simp [volumeSignal], ?_, ?_, ?_, ?_, ?_⟩
  · intro h
    simp only [volumeSignal, volume_multiplier, hq, if_false, if_neg hq]
    rw [if_pos h]
  · intro h
    have h' : ¬(vol / q ≥ 3/2) := by linarith
    simp only [volumeSignal, volume_multiplier, if_neg hq]
    rw [if_neg h', if_pos h]
  · intro h1 h2
    have h' : ¬(vol / q ≥ 3/2) := by linarith
    have h'' : ¬(vol / q < 4/5) := by linarith
    simp only [volumeSignal, volume_multiplier, if_neg hq]
    rw [if_neg h', if_neg h'']
  · simp only [volumeSignal, volume_multiplier, if_neg hq, hratio]
    norm_num
  · simp only [volumeSignal, volume_multiplier, if_neg hq, hratio]
    norm_num

/-- Witness for C3 at a concrete nonzero 7-period average: boundary ratios 1.5
and 0.8. -/
theorem volume_signal_thresholds_witness :
    volumeSignal ((3/2) * 2) (.val 2) = 1 ∧
    volumeSignal ((4/5) * 2) (.val 2) = 1/2 :=
  ⟨(volume_signal_thresholds 0 2 (by norm_num)).2.2.2.2.2.1,
   (volume_signal_thresholds 0 2 (by norm_num)).2.2.2.2.2.2⟩

/-! ## Claim C5 -/

/-- C5 counterexample: when the 14-window realized volatility is NaN
(insufficient history), the volatility normalizer yields 0.0, not the neutral
0.5 the claim requires — Python's `min(0.1, nan)` returns `0.1`, so no
exception is raised and the `except` branch substituting 0.5 never runs. -/
theorem volatility_nan_not_neutral :
    volatilitySignal (some .nan) = 0 ∧ volatilitySignal (some .nan) ≠ 1/2 := by
  norm_num [volatilitySignal]

/-- C5 amended: each of the six normalizers is a total function (never
raises); trend, volume, rsi, funding and fear_greed substitute an undefined
input with the neutral 0.5 — but the volatility normalizer maps an undefined
(NaN) 14-window volatility to 0.0 (since `min(0.1, nan) = 0.1`), and an
absent (`None`) volatility to 1.0. -/
theorem normalizers_totalized_defaults :
    (∀ p m, trendSignal p .nan m = 1/2) ∧
    (∀ p m, trendSignal p m .nan = 1/2) ∧
    (∀ v, volumeSignal v .nan = 1/2) ∧
    (∀ v, volumeSignal v (.val 0) = 1/2) ∧
    rsiSignal .nan = 1/2 ∧
    fundingSignal none = 1/2 ∧
    fearGreedSignal none = 1/2 ∧
    volatilitySignal (some .nan) = 0 ∧
    volatilitySignal none = 1 := by
  refine ⟨fun p m => by cases m <;> rfl, fun p m => by cases m <;> rfl,
          fun v => rfl, fun v => by simp [volumeSignal], rfl, rfl, rfl,
          by norm_num [volatilitySignal], by norm_num [volatilitySignal]⟩

/-! ## Claim C9 -/

/-- C9: For any signal map in which every category consulted by the weight
table reads 0.5 (in particular a map with all six categories at 0.5), and any
non-negative weight assignment, aggregation yields score 0.5 and a NEUTRAL
verdict — every category stays in the weighted sum and in the denominator. -/
theorem allhalf_signals_score_neutral (s wts : List (String × ℚ))
    (hhalf : ∀ kv ∈ wts, lookupD s kv.1 = 1/2)
    (hnn : ∀ kv ∈ wts, 0 ≤ kv.2) :
    weightedScore s wts = 1/2 ∧
    verdictClass (verdictOf (weightedScore s wts)) = .neutral := by
  have hs : weightedScore s wts = 1/2 := by
    unfold weightedScore
    rcases eq_or_ne ((wts.map Prod.snd).sum) 0 with h0 | h0
    · simp [h0]
    · rw [if_neg h0, foldl_lookup_half s wts hhalf 0, zero_add]
      field_simp
      ring
  refine ⟨hs, ?_⟩
  rw [hs, verdictClass_verdictOf]
  norm_num

/-- Witness for C9 at the static configuration: all six signals 0.5 with the
production weight table. -/
theorem allhalf_signals_score_neutral_witness :
    weightedScore allHalfSignals WEIGHTS = 1/2 ∧
    verdictClass (verdictOf (weightedScore allHalfSignals WEIGHTS)) = .neutral :=
  allhalf_signals_score_neutral allHalfSignals WEIGHTS
    (by intro kv h; fin_cases h <;> simp [lookupD, allHalfSignals, List.lookup])
    (by intro kv h; fin_cases h <;> norm_num [WEIGHTS])

/-! ## Claim C4 -/

/-- C4 counterexample: a flat close series (here sixteen closes of 1, length
greater than the period 14) has loss EMA zero at the final step, yet
`compute_rsi` yields NaN (the gain EMA is also zero, so `rs = 0/0 = NaN` in
pandas), not a value saturating toward 100 — refuting the claim for the class
of all series with zero loss EMA. -/
theorem rsi_flat_series_nan :
    compute_rsi (List.replicate 16 1) 14 = .nan ∧
    PFloat.nan ≠ PFloat.val 100 := by
  constructor
  · norm_num [compute_rsi, deltas, emaLast, List.replicate]
  · decide

/-- C4 amended: for every close-price series whose loss EMA is zero at the
final step while its gain EMA is nonzero — in particular any strictly
monotonically increasing series with at least two closes (hence any such
series of length > period) — `compute_rsi` does not crash on the division and
its final value is exactly 100 (maximally bullish); only a series whose gain
EMA is also zero (no price change at all) escapes to NaN instead. -/
theorem rsi_zero_loss_ema_saturates (closes : List ℚ) (period : ℕ)
    (hp : 1 ≤ period) :
    (∀ d ds, deltas closes = d :: ds →
      emaLast (1 / (period : ℚ)) (max (-d) 0) (ds.map (fun x => max (-x) 0)) = 0 →
      emaLast (1 / (period : ℚ)) (max d 0) (ds.map (fun x => max x 0)) ≠ 0 →
      compute_rsi closes period = .val 100) ∧
    (List.Chain' (· < ·) closes → 2 ≤ closes.length →
      compute_rsi closes period = .val 100) := by
  have halpha0 : 0 < 1 / (period : ℚ) := by
    have : (0 : ℚ) < period := by exact_mod_cast hp
    positivity
  have halpha1 : 1 / (period : ℚ) ≤ 1 := by
    have h1 : (1 : ℚ) ≤ period := by exact_mod_cast hp
    rw [div_le_one (by linarith)]
    exact h1
  have hmain : ∀ d ds, deltas closes = d :: ds →
      emaLast (1 / (period : ℚ)) (max (-d) 0) (ds.map (fun x => max (-x) 0)) = 0 →
      emaLast (1 / (period : ℚ)) (max d 0) (ds.map (fun x => max x 0)) ≠ 0 →
      compute_rsi closes period = .val 100 := by
    intro d ds hdl hl hg
    unfold compute_rsi
    rw [hdl]
    simp only [hl, hg]
    simp
  refine ⟨hmain, ?_⟩
  intro hchain hlen
  match closes, hlen with
  | a :: b :: t, _ =>
    have hdl : deltas (a :: b :: t) = (b - a) :: deltas (b :: t) := rfl
    have hpos : ∀ x ∈ deltas (a :: b :: t), 0 < x :=
      deltas_pos_of_chain _ hchain
    have hd : 0 < b - a := hpos (b - a) (by rw [hdl]; simp)
    have hds : ∀ x ∈ deltas (b :: t), 0 < x := fun x hx =>
      hpos x (by rw [hdl]; simp [hx])
    apply hmain (b - a) (deltas (b :: t)) hdl
    · rw [max_eq_right (by linarith : -(b - a) ≤ 0)]
      apply emaLast_zeros
      intro y hy
      rcases List.mem_map.mp hy with ⟨x, hx, hxy⟩
      have : 0 < x := hds x hx
      rw [← hxy, max_eq_right (by linarith)]
    · have : max (b - a) 0 = b - a := max_eq_left (le_of_lt hd)
      rw [this]
      apply ne_of_gt
      apply emaLast_pos _ halpha0 halpha1 _ _ hd
      intro y hy
      rcases List.mem_map.mp hy with ⟨x, hx, hxy⟩
      have hx0 : 0 < x := hds x hx
      rw [← hxy, max_eq_left (le_of_lt hx0)]
      exact hx0

/-- Witness for the amended C4 at a concrete strictly increasing series. -/
theorem rsi_zero_loss_ema_saturates_witness :
    compute_rsi [1, 2, 3] 14 = .val 100 :=
  (rsi_zero_loss_ema_saturates [1, 2, 3] 14 (by norm_num)).2
    (by norm_num [List.chain'_cons]) (by norm_num)

/-! ## Claim C7 -/

/-- Full characterization of the `safe_fetch` attempt loop: the index of the
last attempt made stays within the allotted window, the sleeps performed are
exactly the doubling backoffs between the attempts made, and when every
attempt fails the loop stops at the last allowed attempt and propagates its
error. -/
theorem safe_fetch_aux_spec {A : Type} (f : Nat → Except FetchErr A) :
    ∀ (n : Nat), 1 ≤ n → ∀ (attempt : Nat) (b : ℚ),
      attempt ≤ (safe_fetch_aux f n attempt b).2.1 ∧
      (safe_fetch_aux f n attempt b).2.1 ≤ attempt + (n - 1) ∧
      (safe_fetch_aux f n attempt b).2.2
        = (List.range ((safe_fetch_aux f n attempt b).2.1 - attempt)).map
            (fun i => b * 2 ^ i) ∧
      ((∀ m, ∃ e, f m = .error e) →
        (safe_fetch_aux f n attempt b).2.1 = attempt + (n - 1) ∧
        (safe_fetch_aux f n attempt b).1 = f (attempt + (n - 1)))
  | 1, _, attempt, b => by
    cases hf : f attempt with
    | ok a =>
      have hfx : ∀ m, (∃ e, f m = .error e) → m ≠ attempt := by
        intro m ⟨e, he⟩ hm
        rw [hm, hf] at he
        exact absurd he (by simp)
      refine ⟨?_, ?_, ?_, ?_⟩
      · simp [safe_fetch_aux, hf]
      · simp [safe_fetch_aux, hf]
      · simp [safe_fetch_aux, hf]
      · intro hfail
        exact absurd rfl (hfx attempt (hfail attempt))
    | error e =>
      refine ⟨?_, ?_, ?_, ?_⟩
      · simp [safe_fetch_aux, hf]
      · simp [safe_fetch_aux, hf]
      · simp [safe_fetch_aux, hf]
      · intro _
        refine ⟨by simp [safe_fetch_aux, hf], ?_⟩
        simp [safe_fetch_aux, hf]
  | (k + 2), _, attempt, b => by
    cases hf : f attempt with
    | ok a =>
      have hfx : ∀ m, (∃ e, f m = .error e) → m ≠ attempt := by
        intro m ⟨e, he⟩ hm
        rw [hm, hf] at he
        exact absurd he (by simp)
      refine ⟨?_, ?_, ?_, ?_⟩
      · simp [safe_fetch_aux, hf]
      · simp [safe_fetch_aux, hf]
      · simp [safe_fetch_aux, hf]
      · intro hfail
        exact absurd rfl (hfx attempt (hfail attempt))
    | error e =>
      have ih := safe_fetch_aux_spec f (k + 1) (by omega) (attempt + 1) (2 * b)
      rcases ih with ⟨ih1, ih2, ih3, ih4⟩
      have hred : safe_fetch_aux f (k + 2) attempt b
          = ((safe_fetch_aux f (k + 1) (attempt + 1) (2 * b)).1,
             (safe_fetch_aux f (k + 1) (attempt + 1) (2 * b)).2.1,
             b :: (safe_fetch_aux f (k + 1) (attempt + 1) (2 * b)).2.2) := by
        simp [safe_fetch_aux, hf]
      rw [hred]
      dsimp only
      refine ⟨by omega, by omega, ?_, ?_⟩
      · rw [ih3]
        have hm : (safe_fetch_aux f (k + 1) (attempt + 1) (2 * b)).2.1 - attempt
            = ((safe_fetch_aux f (k + 1) (attempt + 1) (2 * b)).2.1
                - (attempt + 1)) + 1 := by omega
        rw [hm, List.range_succ_eq_map, List.map_cons, List.map_map]
        congr 1
        · rw [pow_zero, mul_one]
        · apply List.map_congr_left
          intro i _
          simp [Function.comp, pow_succ]
          ring
      · intro hfail
        rcases ih4 hfail with ⟨ha, hr⟩
        constructor
        · omega
        · rw [hr]
          congr 1
          omega

/-- C7: `safe_fetch` performs at most `max_retries` attempts; between
attempts it sleeps the exponential backoff sequence 1, 2, 4, … (doubling each
attempt); and when every attempt fails, the final attempt's error propagates
with no further retry — the attempt count equals `max_retries` and the
outcome is exactly the final attempt's. -/
theorem safe_fetch_bounded_retries {A : Type} (f : Nat → Except FetchErr A)
    (max_retries : Nat) (hmr : 1 ≤ max_retries) :
    (safe_fetch f max_retries).2.1 ≤ max_retries ∧
    (safe_fetch f max_retries).2.2
      = (List.range ((safe_fetch f max_retries).2.1 - 1)).map
          (fun i => (2 : ℚ) ^ i) ∧
    ((∀ m, ∃ e, f m = .error e) →
      (safe_fetch f max_retries).2.1 = max_retries ∧
      (safe_fetch f max_retries).1 = f max_retries) := by
  have h := safe_fetch_aux_spec f max_retries hmr 1 1
  rcases h with ⟨h1, h2, h3, h4⟩
  unfold safe_fetch
  refine ⟨by omega, ?_, ?_⟩
  · rw [h3]
    apply List.map_congr_left
    intro i _
    rw [one_mul]
  · intro hfail
    rcases h4 hfail with ⟨ha, hr⟩
    exact ⟨by omega, by rw [hr]; congr 1; omega⟩

/-- Witness for C7: a fetch that fails on every attempt, with
`max_retries = 3`, stops after attempt 3 and propagates that attempt's
error. -/
theorem safe_fetch_bounded_retries_witness :
    (safe_fetch alwaysFail 3).2.1 = 3 ∧
    (safe_fetch alwaysFail 3).1 = alwaysFail 3 :=
  (safe_fetch_bounded_retries alwaysFail 3 (by norm_num)).2.2
    (fun _ => ⟨.other "down", rfl⟩)

/-! ## Claim C6 -/

/-- C6 counterexample: with a primary source refusing every attempt with
HTTP 429 and a working secondary, `fetch_binance_klines` makes all three
`safe_fetch` attempts against the primary — sleeping the 1- and 2-unit
backoffs in between — before falling back; the fallback is not triggered
immediately (after one attempt) as the claim states.  (The secondary is still
invoked exactly once and its series returned.) -/
theorem binance_429_exhausts_retries :
    (fetch_binance_klines env429).primary_attempts = 3 ∧
    (fetch_binance_klines env429).primary_attempts ≠ 1 ∧
    (fetch_binance_klines env429).primary_sleeps = [1, 2] ∧
    (fetch_binance_klines env429).coingecko_calls = 1 := by
  refine ⟨?_, ?_, ?_, ?_⟩ <;>
    simp [fetch_binance_klines, safe_fetch, safe_fetch_aux, env429]

/-- C6 amended: when the primary candle source fails every attempt with an
HTTP 403/429/451-class status, `safe_fetch` first exhausts its three attempts
against the primary (sleeping 1 then 2 time units between them); only then
does the source chain invoke the secondary fallback, exactly once per call,
and it returns the secondary's reshaped series without raising provided the
secondary produced a frame (which requires ≥ 10 valid resampled candles). -/
theorem binance_refusal_uses_fallback_after_retries (env : BinanceFetchEnv)
    (status : Nat) (hst : status = 451 ∨ status = 403 ∨ status = 429)
    (hp : ∀ n, env.primary n = .error (.http (some status)))
    (df : List Candle) (hcg : env.coingecko = some df) :
    fetch_binance_klines env = ⟨.ok df, 3, [1, 2], 1⟩ := by
  rcases hst with h | h | h <;> subst h <;>
    simp [fetch_binance_klines, safe_fetch, safe_fetch_aux, hp, hcg]

/-- Witness for the amended C6 at the concrete always-429 environment. -/
theorem binance_refusal_uses_fallback_after_retries_witness :
    fetch_binance_klines env429 = ⟨.ok demoCandles, 3, [1, 2], 1⟩ :=
  binance_refusal_uses_fallback_after_retries env429 429 (by norm_num)
    (fun _ => rfl) demoCandles rfl

/-! ## Claim C10 -/

/-- C10 counterexample: with `limit = 5` (less than 10) and a healthy
12-bucket CoinGecko series, `fetch_coingecko_klines` returns a 5-row frame —
not between 10 and limit rows, refuting the universal bound as stated for
every input. -/
theorem coingecko_small_limit_few_rows :
    Option.map List.length (fetch_coingecko_klines (.ok cgDemo) 5) = some 5 ∧
    ¬ 10 ≤ 5 := by
  constructor
  · decide
  · norm_num

/-- C10 amended: `fetch_coingecko_klines` is total at its interface; whenever
`limit ≥ 10` (every call in the repository uses the default `limit = 100`) it
either returns a resampled frame with between 10 and `limit` rows or returns
`none`; a raising inner fetch (and likewise empty price data or fewer than 10
resampled candles) maps to `none` and never propagates. -/
theorem coingecko_total_row_bounds (fetched : Except FetchErr CgJson)
    (limit : Nat) (hlim : 10 ≤ limit) :
    (∀ e : FetchErr, fetch_coingecko_klines (.error e) limit = none) ∧
    (∀ l, fetch_coingecko_klines fetched limit = some l →
      10 ≤ l.length ∧ l.length ≤ limit) := by
  constructor
  · intro e
    rfl
  · intro l hl
    cases fetched with
    | error e => exact absurd hl (by simp [fetch_coingecko_klines])
    | ok j =>
      unfold fetch_coingecko_klines at hl
      dsimp only at hl
      by_cases h1 : j.prices = []
      · rw [if_pos h1] at hl
        exact absurd hl (by simp)
      rw [if_neg h1] at hl
      by_cases h2 : (cgResample j.prices j.total_volumes).length < 10
      · rw [if_pos h2] at hl
        exact absurd hl (by simp)
      rw [if_neg h2] at hl
      by_cases h3 : (cgResample j.prices j.total_volumes).length > limit
      · rw [if_pos h3] at hl
        have hl' : l = ilocLast limit (cgResample j.prices j.total_volumes) :=
          (Option.some.injEq _ _ ▸ hl).symm
        have hlim0 : limit ≠ 0 := by omega
        have hlen : l.length = limit := by
          rw [hl', ilocLast, if_neg hlim0, List.length_drop]
          omega
        omega
      · rw [if_neg h3] at hl
        have hl' : l = cgResample j.prices j.total_volumes :=
          (Option.some.injEq _ _ ▸ hl).symm
        have hlen : l.length = (cgResample j.prices j.total_volumes).length := by
          rw [hl']
        omega

/-- Witness for the amended C10: a raising inner fetch maps to `none` at the
default-shaped limit. -/
theorem coingecko_total_row_bounds_witness :
    fetch_coingecko_klines (.error (.other "down")) 100 = none :=
  (coingecko_total_row_bounds (.error (.other "down")) 100 (by norm_num)).1
    (.other "down")

/-! ## Claim C8 -/

theorem trendSignal_bounds (p : ℚ) (a b : PFloat) :
    0 ≤ trendSignal p a b ∧ trendSignal p a b ≤ 1 := by
  cases a <;> cases b <;> simp only [trendSignal] <;>
    first
      | (split_ifs <;> norm_num)
      | norm_num

theorem volumeSignal_bounds (v : ℚ) (q : PFloat) :
    0 ≤ volumeSignal v q ∧ volumeSignal v q ≤ 1 := by
  cases q <;> simp only [volumeSignal] <;>
    first
      | (split_ifs <;> norm_num)
      | norm_num

theorem rsiSignal_bounds (r : PFloat) :
    0 ≤ rsiSignal r ∧ rsiSignal r ≤ 1 := by
  cases r with
  | nan => norm_num [rsiSignal]
  | val x =>
    simp only [rsiSignal]
    split_ifs <;>
      first
        | exact ⟨clamp01_nonneg _, clamp01_le_one _⟩
        | norm_num

theorem fundingSignal_bounds (f : Option ℚ) :
    0 ≤ fundingSignal f ∧ fundingSignal f ≤ 1 := by
  cases f with
  | none => norm_num [fundingSignal]
  | some x =>
    simp only [fundingSignal]
    split_ifs <;>
      first
        | exact ⟨clamp01_nonneg _, clamp01_le_one _⟩
        | norm_num

theorem fearGreedSignal_bounds (g : Option ℤ) :
    0 ≤ fearGreedSignal g ∧ fearGreedSignal g ≤ 1 := by
  cases g with
  | none => norm_num [fearGreedSignal]
  | some v =>
    simp only [fearGreedSignal]
    split_ifs <;>
      first
        | exact ⟨clamp01_nonneg _, clamp01_le_one _⟩
        | norm_num

theorem volatilitySignal_bounds (v : Option PFloat)
    (hv : ∀ q, v = some (.val q) → 0 ≤ q) :
    0 ≤ volatilitySignal v ∧ volatilitySignal v ≤ 1 := by
  match v with
  | none => norm_num [volatilitySignal]
  | some .nan => norm_num [volatilitySignal]
  | some (.val q) =>
    have hq : 0 ≤ q := hv q rfl
    have hmin0 : 0 ≤ min (1/10 : ℚ) q := le_min (by norm_num) hq
    have hmin1 : min (1/10 : ℚ) q ≤ 1/10 := min_le_left _ _
    have hdiv0 : 0 ≤ (min (1/10 : ℚ) q) / (1/10) :=
      div_nonneg hmin0 (by norm_num)
    have hdiv1 : (min (1/10 : ℚ) q) / (1/10) ≤ 1 := by
      rw [div_le_one (by norm_num)]
      exact hmin1
    simp only [volatilitySignal]
    constructor <;> linarith

theorem allHalfSignals_bounds :
    ∀ kv ∈ allHalfSignals, 0 ≤ kv.2 ∧ kv.2 ≤ 1 := by
  intro kv h
  fin_cases h <;> norm_num [allHalfSignals]

/-- C8: Every result `analyze` returns — on the degraded fallback paths as
well as the main path — carries a signals map with exactly the six categories
trend, volume, rsi, funding, fear_greed, volatility, in that order and never
absent, with each value in [0,1].  (The hypothesis records that the 14-window
rolling standard deviation feeding the volatility signal is NaN or
nonnegative, which holds of every standard deviation.) -/
theorem analyze_signals_complete_bounded (env : AnalyzeEnv)
    (hvol : env.vol14.Nonneg) :
    (analyze env).signals.map Prod.fst
      = ["trend", "volume", "rsi", "funding", "fear_greed", "volatility"] ∧
    ∀ kv ∈ (analyze env).signals, 0 ≤ kv.2 ∧ kv.2 ≤ 1 := by
  have hvol' : ∀ q, some env.vol14 = some (.val q) → 0 ≤ q := by
    intro q hq
    cases hv : env.vol14 with
    | nan => rw [hv] at hq; exact absurd hq (by simp)
    | val q0 =>
      rw [hv] at hq
      have : q0 = q := by
        have := Option.some.injEq (PFloat.val q0) (PFloat.val q) ▸ hq
        exact PFloat.val.injEq q0 q ▸ this
      rw [← this]
      have := hvol
      rw [hv] at this
      exact this
  have hfb : ∀ spot : Option ℚ,
      (fallbackResult spot).signals.map Prod.fst
        = ["trend", "volume", "rsi", "funding", "fear_greed", "volatility"] ∧
      ∀ kv ∈ (fallbackResult spot).signals, 0 ≤ kv.2 ∧ kv.2 ≤ 1 := by
    intro spot
    cases spot <;>
      exact ⟨by simp [fallbackResult, allHalfSignals],
             fun kv h => allHalfSignals_bounds kv h⟩
  cases hk : env.klines with
  | error e =>
    rw [show analyze env = fallbackResult env.spot by simp [analyze, hk]]
    exact hfb env.spot
  | ok df =>
    by_cases hlen : df.length < 3
    · rw [show analyze env = fallbackResult env.spot by
        simp [analyze, hk, hlen]]
      exact hfb env.spot
    · rw [show analyze env = mainPath df env by simp [analyze, hk, hlen]]
      constructor
      · simp [mainPath]
      · intro kv hkv
        simp only [mainPath, List.mem_cons, List.not_mem_nil, or_false] at hkv
        rcases hkv with h | h | h | h | h | h <;> subst h
        · exact trendSignal_bounds _ _ _
        · exact volumeSignal_bounds _ _
        · exact rsiSignal_bounds _
        · exact fundingSignal_bounds _
        · exact fearGreedSignal_bounds _
        · exact volatilitySignal_bounds _ hvol'

/-- Witness for C8 at a concrete environment (degraded path, NaN rolling
standard deviation). -/
theorem analyze_signals_complete_bounded_witness :
    (analyze envNoData).signals.map Prod.fst
      = ["trend", "volume", "rsi", "funding", "fear_greed", "volatility"] :=
  (analyze_signals_complete_bounded envNoData trivial).1

end BtcScan
